import Mathlib

/-!
Verification of the antithesis workload harness (tests/antithesis/main.go).

The harness is modelled as pure functions over explicit oracles: network
endpoints are natural numbers, per-endpoint RPC results are supplied by
oracle functions, and each harness function returns the trace of its
observable behaviour (endpoints probed, log-relevant events, transactions
issued). Control flow is translated line by line from the Go source.
-/

namespace Antithesis

/-- Decidable equality of oracle results, used to evaluate the models on
concrete inputs. -/
instance {ε α : Type} [DecidableEq ε] [DecidableEq α] : DecidableEq (Except ε α)
  | .error e, .error f =>
    if h : e = f then .isTrue (congrArg Except.error h)
    else .isFalse fun hc => h (Except.error.inj hc)
  | .error _, .ok _ => .isFalse fun hc => Except.noConfusion hc
  | .ok _, .error _ => .isFalse fun hc => Except.noConfusion hc
  | .ok a, .ok b =>
    if h : a = b then .isTrue (congrArg Except.ok h)
    else .isFalse fun hc => h (Except.ok.inj hc)

/-- Terminal status values returned by the X-chain client
(the choices.Status enumeration used by `ConfirmTx`). -/
inductive XStatus
  | Unknown
  | Processing
  | Rejected
  | Accepted
deriving DecidableEq, Repr

/-- Terminal status values returned by the P-chain client
(the platformvm status enumeration used by `AwaitTxDecided`). -/
inductive PStatus
  | Unknown
  | Committed
  | Aborted
  | Processing
  | Dropped
deriving DecidableEq, Repr

/-- Result of one run of the confirmation protocol: the endpoints probed,
in order, and whether the final "confirmed on all nodes" log fired. -/
structure ConfirmTrace where
  probed : List Nat
  confirmedAll : Bool
deriving DecidableEq, Repr

/-- `confirmXChainTx` (main.go:535-551): for each uri in order, call
`ConfirmTx`; on an RPC error or a status other than Accepted, log and
return immediately; only after every uri answered Accepted log
"confirmed on all nodes". `resp uri` is the result the client at `uri`
returns for the transaction. -/
def confirmXChainTx (resp : Nat → Except Unit XStatus) : List Nat → ConfirmTrace
  | [] => ⟨[], true⟩
  | uri :: rest =>
    match resp uri with
    | .error _ => ⟨[uri], false⟩
    | .ok s =>
      if s = XStatus.Accepted then
        let t := confirmXChainTx resp rest
        ⟨uri :: t.probed, t.confirmedAll⟩
      else ⟨[uri], false⟩

/-- `confirmPChainTx` (main.go:553-569): identical control flow with
`AwaitTxDecided` and the Committed status. -/
def confirmPChainTx (resp : Nat → Except Unit PStatus) : List Nat → ConfirmTrace
  | [] => ⟨[], true⟩
  | uri :: rest =>
    match resp uri with
    | .error _ => ⟨[uri], false⟩
    | .ok s =>
      if s = PStatus.Committed then
        let t := confirmPChainTx resp rest
        ⟨uri :: t.probed, t.confirmedAll⟩
      else ⟨[uri], false⟩

/-- Outcome of `utxos.GetUTXO` for one consumed input on one endpoint:
`notFound` is the ErrNotFound error (the only passing outcome), `found`
is a nil error with the UTXO still present, `lookupError` any other
error. -/
inductive LookupResult
  | notFound
  | found
  | lookupError
deriving DecidableEq, Repr

/-- Inner loop of the consistency verifier (main.go:592-599): for each
consumed input, a lookup result other than ErrNotFound fails the whole
check. -/
def verifyInputsConsumed (lookup : Nat → LookupResult) : List Nat → Bool
  | [] => true
  | input :: rest =>
    if lookup input = LookupResult.notFound then verifyInputsConsumed lookup rest
    else false

/-- Whether one endpoint passes the consistency check: the fresh UTXO
fetch succeeded and every consumed input is absent. -/
def endpointConsistent (fetch : Nat → Except Unit (Nat → LookupResult))
    (inputs : List Nat) (uri : Nat) : Bool :=
  match fetch uri with
  | .error _ => false
  | .ok lookup => verifyInputsConsumed lookup inputs

/-- Result of one run of the consistency verifier: endpoints on which a
check was attempted, in order, and whether the final "not present on all
nodes" log fired. -/
structure VerifyTrace where
  checked : List Nat
  verifiedAll : Bool
deriving DecidableEq, Repr

/-- `verifyXChainTxConsumedUTXOs` (main.go:571-603): for each uri in
order, freshly fetch the complete UTXO set for the workload's addresses
(`fetch uri` is `.ok lookup` on success, where `lookup` answers
`GetUTXO` for each consumed input id); a fetch error or any input whose
lookup is not ErrNotFound logs a failure and returns immediately. -/
def verifyXChainTxConsumedUTXOs (fetch : Nat → Except Unit (Nat → LookupResult))
    (inputs : List Nat) : List Nat → VerifyTrace
  | [] => ⟨[], true⟩
  | uri :: rest =>
    match fetch uri with
    | .error _ => ⟨[uri], false⟩
    | .ok lookup =>
      if verifyInputsConsumed lookup inputs then
        let t := verifyXChainTxConsumedUTXOs fetch inputs rest
        ⟨uri :: t.checked, t.verifiedAll⟩
      else ⟨[uri], false⟩

/-- `verifyPChainTxConsumedUTXOs` (main.go:605-636): identical control
flow against the P-chain client and the platform chain id. -/
def verifyPChainTxConsumedUTXOs (fetch : Nat → Except Unit (Nat → LookupResult))
    (inputs : List Nat) : List Nat → VerifyTrace
  | [] => ⟨[], true⟩
  | uri :: rest =>
    match fetch uri with
    | .error _ => ⟨[uri], false⟩
    | .ok lookup =>
      if verifyInputsConsumed lookup inputs then
        let t := verifyPChainTxConsumedUTXOs fetch inputs rest
        ⟨uri :: t.checked, t.verifiedAll⟩
      else ⟨[uri], false⟩

/-- Modelled from the spec: `units.Schmeckle`, the repository's units
package constant (not under the harness source tree) used as the
transfer amount of the simple-transfer and P-to-X flows; it equals
49*1000 + 463 nanoAVAX. -/
def schmeckle : Nat := 49463

/-- Modelled from the spec: `units.Avax`, the repository's units package
constant (not under the harness source tree) used as the transfer amount
of the X-to-P flow; one AVAX is 10^9 nanoAVAX. -/
def avaxUnit : Nat := 1000000000

/-- The fee amounts the wallet reports (`BaseTxFee`, `CreateAssetTxFee`
on the X wallet, `BaseTxFee` on the P wallet). -/
structure Fees where
  xBaseTxFee : Nat
  xCreateAssetTxFee : Nat
  pBaseTxFee : Nat
deriving DecidableEq, Repr

/-- Observable events of one flow execution, in program order.
Transactions within a flow are numbered 1 and 2 in issuance order. -/
inductive Event
  | balanceFetchFailed
  | skip
  | issueFailed (tx : Nat)
  | issued (tx : Nat)
  | confirmCall (tx : Nat)
  | verifyCall (tx : Nat)
deriving DecidableEq, Repr

/-- Oracle for one flow execution: the result of the flow's initial
balance query (X-chain for flows 0-3, P-chain for flow 4), and the
results of its first and second wallet issuance calls (`.ok txid` on
success). -/
structure FlowEnv where
  balance : Except Unit Nat
  issue1 : Except Unit Nat
  issue2 : Except Unit Nat

/-- Result of one flow execution: its event trace and the ids of the
transactions it actually issued. -/
structure FlowResult where
  events : List Event
  issued : List Nat
deriving DecidableEq, Repr

/-- Balance needed by `issueXChainBaseTx` (main.go:251):
baseTxFee + units.Schmeckle. -/
def issueXChainBaseTxNeeded (fees : Fees) : Nat :=
  fees.xBaseTxFee + schmeckle

/-- `issueXChainBaseTx` (main.go:236-283): fetch X balance (error logs
and returns), skip when below baseTxFee + Schmeckle, otherwise issue one
base transaction, then confirm and verify it. -/
def issueXChainBaseTx (fees : Fees) (env : FlowEnv) : FlowResult :=
  match env.balance with
  | .error _ => ⟨[.balanceFetchFailed], []⟩
  | .ok avaxBalance =>
    if avaxBalance < issueXChainBaseTxNeeded fees then ⟨[.skip], []⟩
    else
      match env.issue1 with
      | .error _ => ⟨[.issueFailed 1], []⟩
      | .ok baseTx =>
        ⟨[.issued 1, .confirmCall 1, .verifyCall 1], [baseTx]⟩

/-- Balance needed by `issueXChainCreateAssetTx` (main.go:299):
createAssetTxFee. -/
def issueXChainCreateAssetTxNeeded (fees : Fees) : Nat :=
  fees.xCreateAssetTxFee

/-- `issueXChainCreateAssetTx` (main.go:285-331): fetch X balance, skip
when below createAssetTxFee, otherwise issue one create-asset
transaction, then confirm and verify it. -/
def issueXChainCreateAssetTx (fees : Fees) (env : FlowEnv) : FlowResult :=
  match env.balance with
  | .error _ => ⟨[.balanceFetchFailed], []⟩
  | .ok avaxBalance =>
    if avaxBalance < issueXChainCreateAssetTxNeeded fees then ⟨[.skip], []⟩
    else
      match env.issue1 with
      | .error _ => ⟨[.issueFailed 1], []⟩
      | .ok createAssetTx =>
        ⟨[.issued 1, .confirmCall 1, .verifyCall 1], [createAssetTx]⟩

/-- Balance needed by `issueXChainOperationTx` (main.go:349):
createAssetTxFee + baseTxFee. -/
def issueXChainOperationTxNeeded (fees : Fees) : Nat :=
  fees.xCreateAssetTxFee + fees.xBaseTxFee

/-- `issueXChainOperationTx` (main.go:333-393): fetch X balance, skip
when below createAssetTxFee + baseTxFee, issue the create-asset
transaction (tx 1), then the dependent mint operation transaction
(tx 2); an error on either issuance logs and returns at once. Only after
both are issued: confirm tx 1, verify tx 1, confirm tx 2, verify tx 2. -/
def issueXChainOperationTx (fees : Fees) (env : FlowEnv) : FlowResult :=
  match env.balance with
  | .error _ => ⟨[.balanceFetchFailed], []⟩
  | .ok avaxBalance =>
    if avaxBalance < issueXChainOperationTxNeeded fees then ⟨[.skip], []⟩
    else
      match env.issue1 with
      | .error _ => ⟨[.issueFailed 1], []⟩
      | .ok createAssetTx =>
        match env.issue2 with
        | .error _ => ⟨[.issued 1, .issueFailed 2], [createAssetTx]⟩
        | .ok operationTx =>
          ⟨[.issued 1, .issued 2, .confirmCall 1, .verifyCall 1,
              .confirmCall 2, .verifyCall 2],
            [createAssetTx, operationTx]⟩

/-- Balance needed by `issueXToPTransfer` (main.go:413):
xBaseTxFee + pBaseTxFee + units.Avax. -/
def issueXToPTransferNeeded (fees : Fees) : Nat :=
  fees.xBaseTxFee + fees.pBaseTxFee + avaxUnit

/-- `issueXToPTransfer` (main.go:395-459): fetch X balance, skip when
below the two fees plus one Avax, issue the X-chain export (tx 1), then
the P-chain import (tx 2); only after both are issued: confirm tx 1,
verify tx 1, confirm tx 2, verify tx 2. -/
def issueXToPTransfer (fees : Fees) (env : FlowEnv) : FlowResult :=
  match env.balance with
  | .error _ => ⟨[.balanceFetchFailed], []⟩
  | .ok avaxBalance =>
    if avaxBalance < issueXToPTransferNeeded fees then ⟨[.skip], []⟩
    else
      match env.issue1 with
      | .error _ => ⟨[.issueFailed 1], []⟩
      | .ok exportTx =>
        match env.issue2 with
        | .error _ => ⟨[.issued 1, .issueFailed 2], [exportTx]⟩
        | .ok importTx =>
          ⟨[.issued 1, .issued 2, .confirmCall 1, .verifyCall 1,
              .confirmCall 2, .verifyCall 2],
            [exportTx, importTx]⟩

/-- Balance needed by `issuePToXTransfer` (main.go:479):
pBaseTxFee + xBaseTxFee + units.Schmeckle. -/
def issuePToXTransferNeeded (fees : Fees) : Nat :=
  fees.pBaseTxFee + fees.xBaseTxFee + schmeckle

/-- `issuePToXTransfer` (main.go:461-523): fetch P balance, skip when
below the two fees plus one Schmeckle, issue the P-chain export (tx 1),
then the X-chain import (tx 2); only after both are issued: confirm
tx 1, verify tx 1, confirm tx 2, verify tx 2. -/
def issuePToXTransfer (fees : Fees) (env : FlowEnv) : FlowResult :=
  match env.balance with
  | .error _ => ⟨[.balanceFetchFailed], []⟩
  | .ok avaxBalance =>
    if avaxBalance < issuePToXTransferNeeded fees then ⟨[.skip], []⟩
    else
      match env.issue1 with
      | .error _ => ⟨[.issueFailed 1], []⟩
      | .ok exportTx =>
        match env.issue2 with
        | .error _ => ⟨[.issued 1, .issueFailed 2], [exportTx]⟩
        | .ok importTx =>
          ⟨[.issued 1, .issued 2, .confirmCall 1, .verifyCall 1,
              .confirmCall 2, .verifyCall 2],
            [exportTx, importTx]⟩

/-- How an actor's balance evolves when a list of issued transactions is
applied, for an arbitrary per-transaction effect: with no transactions
issued the balance is unchanged. -/
def balanceAfter (effect : Nat → Nat → Nat) (b : Nat) (txs : List Nat) : Nat :=
  txs.foldl effect b

/-- The switch in `workload.run` (main.go:209-220): flow ids 0-4 select
the five flows; any other value executes nothing (no default case). -/
def execFlow (fees : Fees) (flowID : Nat) (env : FlowEnv) : FlowResult :=
  match flowID with
  | 0 => issueXChainBaseTx fees env
  | 1 => issueXChainCreateAssetTx fees env
  | 2 => issueXChainOperationTx fees env
  | 3 => issueXToPTransfer fees env
  | 4 => issuePToXTransfer fees env
  | _ => ⟨[], []⟩

/-- Oracle for one `workload.run` execution: the two starting balance
queries, and per iteration the drawn flow id, the flow's oracle, and
whether the cancellation signal fires during the wait after that
iteration. -/
structure RunEnv where
  xBalance : Except Unit Nat
  pBalance : Except Unit Nat
  choice : Nat → Fin 5
  flowEnv : Nat → FlowEnv
  cancel : Nat → Bool

/-- How `workload.run` ended: `fatal` models log.Fatalf (process exit),
`returned` a return caused by cancellation, `running` that the loop was
still going when the observation fuel ran out. -/
inductive RunOutcome
  | fatal
  | returned
  | running
deriving DecidableEq, Repr

/-- Result of observing `workload.run`: how it ended and the list of
completed flow executions, in order. -/
structure RunResult where
  outcome : RunOutcome
  flows : List FlowResult
deriving DecidableEq, Repr

/-- The loop of `workload.run` (main.go:201-233), observed for `fuel`
iterations starting at iteration `k`: execute the chosen flow to
completion, then wait; if cancellation fires during the wait, return.
Returns the completed flow results and whether the loop returned. -/
def runLoop (fees : Fees) (env : RunEnv) : Nat → Nat → List FlowResult × Bool
  | 0, _ => ([], false)
  | fuel + 1, k =>
    let r := execFlow fees (env.choice k).val (env.flowEnv k)
    if env.cancel k then ([r], true)
    else
      let rest := runLoop fees env fuel (k + 1)
      (r :: rest.1, rest.2)

/-- `workload.run` (main.go:174-233): fetch the starting X and P
balances, where either failure is log.Fatalf (process exits, no flow
runs), then enter the scheduler loop. -/
def workloadRun (fees : Fees) (env : RunEnv) (fuel : Nat) : RunResult :=
  match env.xBalance with
  | .error _ => ⟨.fatal, []⟩
  | .ok _ =>
    match env.pBalance with
    | .error _ => ⟨.fatal, []⟩
    | .ok _ =>
      let l := runLoop fees env fuel 0
      ⟨if l.2 then .returned else .running, l.1⟩

/-- Health poll answers a node can give (main.go:148-157): an RPC error,
a healthy report, or an unhealthy report. -/
inductive HealthResult
  | healthy
  | unhealthy
  | unreachable
deriving DecidableEq, Repr

/-- Log lines of `awaitHealthyNode`, tagged with the poll attempt. -/
inductive HealthLog
  | reachedHealthy (k : Nat)
  | reportedUnhealthy (k : Nat)
  | unreachableAt (k : Nat)
  | cancelledAt (k : Nat)
deriving DecidableEq, Repr

/-- The ticker interval of `awaitHealthyNode` (main.go:143), in
milliseconds. -/
def healthPollIntervalMilliseconds : Nat := 100

/-- `awaitHealthyNode` (main.go:141-165), observed for `fuel` poll
attempts starting at attempt `k`: poll health; on healthy, log and
return the attempt number; on an error or an unhealthy report, log and
keep polling on the fixed ticker. Cancellation (`cancelled k` true while
waiting after attempt `k`) is only logged: the loop continues and the
function does not return. The first component is `some n` when the call
returned at attempt `n`, `none` when it was still polling after `fuel`
attempts. -/
def awaitHealthyNode (resp : Nat → HealthResult) (cancelled : Nat → Bool) :
    Nat → Nat → Option Nat × List HealthLog
  | 0, _ => (none, [])
  | fuel + 1, k =>
    match resp k with
    | .healthy => (some k, [.reachedHealthy k])
    | .unhealthy =>
      let rest := awaitHealthyNode resp cancelled fuel (k + 1)
      (rest.1, .reportedUnhealthy k ::
        ((if cancelled k then [HealthLog.cancelledAt k] else []) ++ rest.2))
    | .unreachable =>
      let rest := awaitHealthyNode resp cancelled fuel (k + 1)
      (rest.1, .unreachableAt k ::
        ((if cancelled k then [HealthLog.cancelledAt k] else []) ++ rest.2))

/-- `awaitHealthyNodes` (main.go:134-139): await each uri in order;
`true` means the function returned (every endpoint reported healthy
within the observation fuel), `false` that it was still blocked on some
endpoint. -/
def awaitHealthyNodes (resps : Nat → Nat → HealthResult)
    (cancelled : Nat → Nat → Bool) (fuel : Nat) : List Nat → Bool
  | [] => true
  | uri :: rest =>
    match (awaitHealthyNode (resps uri) (cancelled uri) fuel 0).1 with
    | some _ => awaitHealthyNodes resps cancelled fuel rest
    | none => false

/-- Output owners as built by the harness: a threshold and an address
list. -/
structure OutputOwners where
  threshold : Nat
  addrs : List Nat
deriving DecidableEq, Repr

/-- `set.Peek` over the workload's address set (modelled as a list):
an arbitrary element when non-empty (the head here), the zero value and
`false` when empty. -/
def peek (s : List Nat) : Nat × Bool :=
  match s with
  | [] => (0, false)
  | a :: _ => (a, true)

/-- `makeOwner` (main.go:525-533): peek one owned address (the ok flag
is ignored) and wrap it as a threshold-1 single-address owner. -/
def makeOwner (waddrs : List Nat) : OutputOwners :=
  ⟨1, [(peek waddrs).1]⟩

/-- Fixture: an X-chain client that answers Accepted everywhere. -/
def respXAllAccept : Nat → Except Unit XStatus := fun _ => .ok XStatus.Accepted

/-- Fixture: a P-chain client that answers Committed everywhere. -/
def respPAllCommit : Nat → Except Unit PStatus := fun _ => .ok PStatus.Committed

/-- Fixture: an X-chain client that errors on endpoint 1 and answers
Accepted elsewhere. -/
def respXFailAt1 : Nat → Except Unit XStatus :=
  fun u => if u = 1 then .error () else .ok XStatus.Accepted

/-- Fixture: a UTXO fetch that succeeds everywhere with every lookup
answering ErrNotFound. -/
def fetchAllNotFound : Nat → Except Unit (Nat → LookupResult) :=
  fun _ => .ok fun _ => LookupResult.notFound

/-- Fixture: a UTXO fetch on which endpoint 1 still reports every
queried UTXO as present. -/
def fetchFoundAt1 : Nat → Except Unit (Nat → LookupResult) :=
  fun u => if u = 1 then .ok (fun _ => LookupResult.found)
    else .ok fun _ => LookupResult.notFound

/-- Fixture: zero fees. -/
def feesZero : Fees := ⟨0, 0, 0⟩

/-- Fixture: all fees equal to one nanoAVAX. -/
def feesOne : Fees := ⟨1, 1, 1⟩

/-- Fixture: a flow oracle with a large fetched balance and both
issuances succeeding (tx ids 1 and 2). -/
def envRich : FlowEnv := ⟨.ok 2000000000, .ok 1, .ok 2⟩

/-- Fixture: a flow oracle with a fetched balance of zero. -/
def envPoor : FlowEnv := ⟨.ok 0, .ok 1, .ok 2⟩

/-- Fixture: a flow oracle whose balance query fails. -/
def envBalErr : FlowEnv := ⟨.error (), .ok 1, .ok 2⟩

/-- Fixture: a flow oracle with a large balance whose first issuance
fails. -/
def envIssue1Err : FlowEnv := ⟨.ok 2000000000, .error (), .ok 2⟩

/-- Fixture: a run oracle whose starting X-chain balance query fails. -/
def runEnvFatal : RunEnv :=
  ⟨.error (), .ok 0, fun _ => 0, fun _ => envPoor, fun _ => false⟩

/-- Fixture: a run oracle with healthy starting balances that is
cancelled during the wait after iteration 1. -/
def runEnvCancelAt1 : RunEnv :=
  ⟨.ok 5, .ok 5, fun _ => 0, fun _ => envPoor, fun k => k == 1⟩

/-- Fixture: a node that reports unhealthy twice and healthy from the
third poll on. -/
def respHealthyAt2 : Nat → HealthResult :=
  fun k => if k < 2 then HealthResult.unhealthy else HealthResult.healthy

/-- Fixture: a node that never reports healthy. -/
def respNeverHealthy : Nat → HealthResult := fun _ => HealthResult.unhealthy

/-- Fixture: a cancellation signal that never fires. -/
def cancelledNever : Nat → Bool := fun _ => false

/-- Fixture: a cancellation signal that always fires. -/
def cancelledAlways : Nat → Bool := fun _ => true

/-- Fixture: per-endpoint health streams on which no endpoint ever
reports healthy. -/
def respsNever : Nat → Nat → HealthResult := fun _ => respNeverHealthy

/-- Fixture: per-endpoint cancellation signals that never fire. -/
def cancelledNone : Nat → Nat → Bool := fun _ _ => false

/-- The flow executions the scheduler performs in iterations
k, k+1, ..., k+m-1, each run to completion. -/
def flowsFrom (fees : Fees) (env : RunEnv) : Nat → Nat → List FlowResult
  | _, 0 => []
  | k, m + 1 =>
    execFlow fees (env.choice k).val (env.flowEnv k) ::
      flowsFrom fees env (k + 1) m

/-! ### Confirmation protocol lemmas -/

theorem confirmX_all_iff (resp : Nat → Except Unit XStatus) (uris : List Nat) :
    (confirmXChainTx resp uris).confirmedAll = true ↔
      ∀ u ∈ uris, resp u = .ok XStatus.Accepted := by
  induction uris with
  | nil => simp [confirmXChainTx]
  | cons uri rest ih =>
    cases h : resp uri with
    | error e => simp [confirmXChainTx, h]
    | ok s =>
      by_cases hs : s = XStatus.Accepted
      · subst hs
        simp [confirmXChainTx, h, ih]
      · simp [confirmXChainTx, h, hs]

theorem confirmP_all_iff (resp : Nat → Except Unit PStatus) (uris : List Nat) :
    (confirmPChainTx resp uris).confirmedAll = true ↔
      ∀ u ∈ uris, resp u = .ok PStatus.Committed := by
  induction uris with
  | nil => simp [confirmPChainTx]
  | cons uri rest ih =>
    cases h : resp uri with
    | error e => simp [confirmPChainTx, h]
    | ok s =>
      by_cases hs : s = PStatus.Committed
      · subst hs
        simp [confirmPChainTx, h, ih]
      · simp [confirmPChainTx, h, hs]

theorem confirmX_early_eq (resp : Nat → Except Unit XStatus) :
    ∀ pre : List Nat, ∀ u : Nat, ∀ post : List Nat,
      (∀ v ∈ pre, resp v = .ok XStatus.Accepted) →
      resp u ≠ .ok XStatus.Accepted →
      confirmXChainTx resp (pre ++ u :: post) = ⟨pre ++ [u], false⟩ := by
  intro pre
  induction pre with
  | nil =>
    intro u post _ hu
    cases h : resp u with
    | error e => simp [confirmXChainTx, h]
    | ok s =>
      have hs : ¬ s = XStatus.Accepted := by
        intro hsa
        exact hu (hsa ▸ h)
      simp [confirmXChainTx, h, hs]
  | cons v pre ih =>
    intro u post hpre hu
    have hv : resp v = .ok XStatus.Accepted := hpre v (List.mem_cons_self v pre)
    have hrec := ih u post (fun w hw => hpre w (List.mem_cons_of_mem v hw)) hu
    simp [confirmXChainTx, hv, hrec]

theorem confirmP_early_eq (resp : Nat → Except Unit PStatus) :
    ∀ pre : List Nat, ∀ u : Nat, ∀ post : List Nat,
      (∀ v ∈ pre, resp v = .ok PStatus.Committed) →
      resp u ≠ .ok PStatus.Committed →
      confirmPChainTx resp (pre ++ u :: post) = ⟨pre ++ [u], false⟩ := by
  intro pre
  induction pre with
  | nil =>
    intro u post _ hu
    cases h : resp u with
    | error e => simp [confirmPChainTx, h]
    | ok s =>
      have hs : ¬ s = PStatus.Committed := by
        intro hsa
        exact hu (hsa ▸ h)
      simp [confirmPChainTx, h, hs]
  | cons v pre ih =>
    intro u post hpre hu
    have hv : resp v = .ok PStatus.Committed := hpre v (List.mem_cons_self v pre)
    have hrec := ih u post (fun w hw => hpre w (List.mem_cons_of_mem v hw)) hu
    simp [confirmPChainTx, hv, hrec]

/-- Claim C2: the confirmation protocol reports network-wide
confirmation exactly when every endpoint, probed in list order, returned
the terminal accepted (X-chain) or committed (P-chain) status; and on
the first endpoint answering an error or any other status it stops with
that endpoint as the last one probed, leaving the rest unprobed. -/
theorem confirm_allNodes_iff_every_endpoint_accepted
    (uris : List Nat) (respX : Nat → Except Unit XStatus)
    (respP : Nat → Except Unit PStatus) :
    ((confirmXChainTx respX uris).confirmedAll = true ↔
        ∀ u ∈ uris, respX u = .ok XStatus.Accepted)
    ∧ ((confirmPChainTx respP uris).confirmedAll = true ↔
        ∀ u ∈ uris, respP u = .ok PStatus.Committed)
    ∧ (∀ pre u post, uris = pre ++ u :: post →
        (∀ v ∈ pre, respX v = .ok XStatus.Accepted) →
        respX u ≠ .ok XStatus.Accepted →
        confirmXChainTx respX uris = ⟨pre ++ [u], false⟩)
    ∧ (∀ pre u post, uris = pre ++ u :: post →
        (∀ v ∈ pre, respP v = .ok PStatus.Committed) →
        respP u ≠ .ok PStatus.Committed →
        confirmPChainTx respP uris = ⟨pre ++ [u], false⟩) := by
  refine ⟨confirmX_all_iff respX uris, confirmP_all_iff respP uris, ?_, ?_⟩
  · intro pre u post hsplit hpre hu
    rw [hsplit]
    exact confirmX_early_eq respX pre u post hpre hu
  · intro pre u post hsplit hpre hu
    rw [hsplit]
    exact confirmP_early_eq respP pre u post hpre hu

/-- Claim C2 witness: on endpoints [0, 1, 2], an all-accepting X client
confirms on all nodes, and a client erroring on endpoint 1 stops right
after probing endpoints 0 and 1. -/
theorem confirm_allNodes_iff_every_endpoint_accepted_witness :
    (confirmXChainTx respXAllAccept [0, 1, 2]).confirmedAll = true ∧
      confirmXChainTx respXFailAt1 [0, 1, 2] = ⟨[0, 1], false⟩ :=
  ⟨(confirm_allNodes_iff_every_endpoint_accepted [0, 1, 2] respXAllAccept
      respPAllCommit).1.mpr (by decide),
    (confirm_allNodes_iff_every_endpoint_accepted [0, 1, 2] respXFailAt1
      respPAllCommit).2.2.1 [0] 1 [2] (by decide) (by decide) (by decide)⟩

/-! ### Consistency verifier lemmas -/

theorem verifyInputsConsumed_iff (lookup : Nat → LookupResult) (inputs : List Nat) :
    verifyInputsConsumed lookup inputs = true ↔
      ∀ i ∈ inputs, lookup i = LookupResult.notFound := by
  induction inputs with
  | nil => simp [verifyInputsConsumed]
  | cons input rest ih =>
    by_cases h : lookup input = LookupResult.notFound
    · simp [verifyInputsConsumed, h, ih]
    · simp [verifyInputsConsumed, h]

theorem endpointConsistent_iff (fetch : Nat → Except Unit (Nat → LookupResult))
    (inputs : List Nat) (uri : Nat) :
    endpointConsistent fetch inputs uri = true ↔
      ∃ lookup, fetch uri = .ok lookup ∧
        ∀ i ∈ inputs, lookup i = LookupResult.notFound := by
  cases h : fetch uri with
  | error e =>
    simp only [endpointConsistent, h]
    constructor
    · intro hc
      cases hc
    · rintro ⟨lookup, hl, -⟩
      cases hl
  | ok lookup =>
    simp only [endpointConsistent, h]
    constructor
    · intro hc
      exact ⟨lookup, rfl, (verifyInputsConsumed_iff lookup inputs).mp hc⟩
    · rintro ⟨lk, hl, hall⟩
      cases hl
      exact (verifyInputsConsumed_iff lookup inputs).mpr hall

theorem verifyX_all_iff (fetch : Nat → Except Unit (Nat → LookupResult))
    (inputs : List Nat) (uris : List Nat) :
    (verifyXChainTxConsumedUTXOs fetch inputs uris).verifiedAll = true ↔
      ∀ u ∈ uris, endpointConsistent fetch inputs u = true := by
  induction uris with
  | nil => simp [verifyXChainTxConsumedUTXOs]
  | cons uri rest ih =>
    cases h : fetch uri with
    | error e => simp [verifyXChainTxConsumedUTXOs, endpointConsistent, h]
    | ok lookup =>
      by_cases hv : verifyInputsConsumed lookup inputs
      · simp [verifyXChainTxConsumedUTXOs, endpointConsistent, h, hv, ih]
      · simp [verifyXChainTxConsumedUTXOs, endpointConsistent, h, hv]

theorem verifyP_all_iff (fetch : Nat → Except Unit (Nat → LookupResult))
    (inputs : List Nat) (uris : List Nat) :
    (verifyPChainTxConsumedUTXOs fetch inputs uris).verifiedAll = true ↔
      ∀ u ∈ uris, endpointConsistent fetch inputs u = true := by
  induction uris with
  | nil => simp [verifyPChainTxConsumedUTXOs]
  | cons uri rest ih =>
    cases h : fetch uri with
    | error e => simp [verifyPChainTxConsumedUTXOs, endpointConsistent, h]
    | ok lookup =>
      by_cases hv : verifyInputsConsumed lookup inputs
      · simp [verifyPChainTxConsumedUTXOs, endpointConsistent, h, hv, ih]
      · simp [verifyPChainTxConsumedUTXOs, endpointConsistent, h, hv]

theorem verifyX_early_eq (fetch : Nat → Except Unit (Nat → LookupResult))
    (inputs : List Nat) :
    ∀ pre : List Nat, ∀ u : Nat, ∀ post : List Nat,
      (∀ v ∈ pre, endpointConsistent fetch inputs v = true) →
      endpointConsistent fetch inputs u = false →
      verifyXChainTxConsumedUTXOs fetch inputs (pre ++ u :: post) =
        ⟨pre ++ [u], false⟩ := by
  intro pre
  induction pre with
  | nil =>
    intro u post _ hu
    cases h : fetch u with
    | error e => simp [verifyXChainTxConsumedUTXOs, h]
    | ok lookup =>
      simp only [endpointConsistent, h] at hu
      simp [verifyXChainTxConsumedUTXOs, h, hu]
  | cons v pre ih =>
    intro u post hpre hu
    have hv := hpre v (List.mem_cons_self v pre)
    cases h : fetch v with
    | error e =>
      simp only [endpointConsistent, h] at hv
      cases hv
    | ok lookup =>
      simp only [endpointConsistent, h] at hv
      have hrec := ih u post (fun w hw => hpre w (List.mem_cons_of_mem v hw)) hu
      simp [verifyXChainTxConsumedUTXOs, h, hv, hrec]

theorem verifyP_early_eq (fetch : Nat → Except Unit (Nat → LookupResult))
    (inputs : List Nat) :
    ∀ pre : List Nat, ∀ u : Nat, ∀ post : List Nat,
      (∀ v ∈ pre, endpointConsistent fetch inputs v = true) →
      endpointConsistent fetch inputs u = false →
      verifyPChainTxConsumedUTXOs fetch inputs (pre ++ u :: post) =
        ⟨pre ++ [u], false⟩ := by
  intro pre
  induction pre with
  | nil =>
    intro u post _ hu
    cases h : fetch u with
    | error e => simp [verifyPChainTxConsumedUTXOs, h]
    | ok lookup =>
      simp only [endpointConsistent, h] at hu
      simp [verifyPChainTxConsumedUTXOs, h, hu]
  | cons v pre ih =>
    intro u post hpre hu
    have hv := hpre v (List.mem_cons_self v pre)
    cases h : fetch v with
    | error e =>
      simp only [endpointConsistent, h] at hv
      cases hv
    | ok lookup =>
      simp only [endpointConsistent, h] at hv
      have hrec := ih u post (fun w hw => hpre w (List.mem_cons_of_mem v hw)) hu
      simp [verifyPChainTxConsumedUTXOs, h, hv, hrec]

/-- Claim C1: the consistency verifier reports success on all nodes
exactly when, on every endpoint, the fresh UTXO fetch succeeded and
every consumed UTXO reference looks up as not-found; and on the first
endpoint violating this (reference still present, or a fetch or lookup
error) it stops with that endpoint as the last one checked, leaving the
rest unchecked. -/
theorem verify_consumed_absent_iff
    (uris inputs : List Nat) (fetch : Nat → Except Unit (Nat → LookupResult)) :
    ((verifyXChainTxConsumedUTXOs fetch inputs uris).verifiedAll = true ↔
        ∀ u ∈ uris, ∃ lookup, fetch u = .ok lookup ∧
          ∀ i ∈ inputs, lookup i = LookupResult.notFound)
    ∧ ((verifyPChainTxConsumedUTXOs fetch inputs uris).verifiedAll = true ↔
        ∀ u ∈ uris, ∃ lookup, fetch u = .ok lookup ∧
          ∀ i ∈ inputs, lookup i = LookupResult.notFound)
    ∧ (∀ pre u post, uris = pre ++ u :: post →
        (∀ v ∈ pre, endpointConsistent fetch inputs v = true) →
        endpointConsistent fetch inputs u = false →
        verifyXChainTxConsumedUTXOs fetch inputs uris = ⟨pre ++ [u], false⟩)
    ∧ (∀ pre u post, uris = pre ++ u :: post →
        (∀ v ∈ pre, endpointConsistent fetch inputs v = true) →
        endpointConsistent fetch inputs u = false →
        verifyPChainTxConsumedUTXOs fetch inputs uris = ⟨pre ++ [u], false⟩) := by
  refine ⟨?_, ?_, ?_, ?_⟩
  · rw [verifyX_all_iff fetch inputs uris]
    constructor
    · intro h u hu
      exact (endpointConsistent_iff fetch inputs u).mp (h u hu)
    · intro h u hu
      exact (endpointConsistent_iff fetch inputs u).mpr (h u hu)
  · rw [verifyP_all_iff fetch inputs uris]
    constructor
    · intro h u hu
      exact (endpointConsistent_iff fetch inputs u).mp (h u hu)
    · intro h u hu
      exact (endpointConsistent_iff fetch inputs u).mpr (h u hu)
  · intro pre u post hsplit hpre hu
    rw [hsplit]
    exact verifyX_early_eq fetch inputs pre u post hpre hu
  · intro pre u post hsplit hpre hu
    rw [hsplit]
    exact verifyP_early_eq fetch inputs pre u post hpre hu

/-- Claim C1 witness: on endpoints [0, 1] with consumed inputs [5, 6],
an everywhere-not-found fetch verifies on all nodes, and a fetch on
which endpoint 1 still holds the references stops after checking
endpoints 0 and 1. -/
theorem verify_consumed_absent_iff_witness :
    (verifyXChainTxConsumedUTXOs fetchAllNotFound [5, 6] [0, 1]).verifiedAll = true ∧
      verifyXChainTxConsumedUTXOs fetchFoundAt1 [5, 6] [0, 1] = ⟨[0, 1], false⟩ :=
  ⟨(verify_consumed_absent_iff [0, 1] [5, 6] fetchAllNotFound).1.mpr
      (by intro u _; exact ⟨fun _ => LookupResult.notFound, rfl, by intro i _; rfl⟩),
    (verify_consumed_absent_iff [0, 1] [5, 6] fetchFoundAt1).2.2.1 [0] 1 []
      (by decide) (by decide) (by decide)⟩

/-! ### Transaction flow theorems -/

/-- Claim C3 counterexample: in the asset-creation-plus-mint flow with a
sufficient balance and both issuances succeeding, the dependent mint
transaction is issued before the creation transaction's confirmation and
verification: neither the confirm call nor the verify call for the first
transaction precedes the second issuance in the trace. -/
theorem operation_flow_issues_before_confirming :
    ¬ ((issueXChainOperationTx feesOne envRich).events.indexOf (Event.confirmCall 1) <
          (issueXChainOperationTx feesOne envRich).events.indexOf (Event.issued 2) ∧
        (issueXChainOperationTx feesOne envRich).events.indexOf (Event.verifyCall 1) <
          (issueXChainOperationTx feesOne envRich).events.indexOf (Event.issued 2)) := by
  decide

/-- Claim C3 (amended): single-transaction flows run precondition check,
issue, confirm, verify in that order; in the three two-transaction flows
both transactions are issued first, and only then do the first
transaction's confirmation and verification complete, before the second
transaction's confirmation and verification begin. -/
theorem flow_shapes (fees : Fees) (env : FlowEnv) (b t1 t2 : Nat)
    (hb : env.balance = .ok b) (h1 : env.issue1 = .ok t1)
    (h2 : env.issue2 = .ok t2) :
    (¬ b < issueXChainBaseTxNeeded fees →
      issueXChainBaseTx fees env =
        ⟨[.issued 1, .confirmCall 1, .verifyCall 1], [t1]⟩)
    ∧ (¬ b < issueXChainCreateAssetTxNeeded fees →
      issueXChainCreateAssetTx fees env =
        ⟨[.issued 1, .confirmCall 1, .verifyCall 1], [t1]⟩)
    ∧ (¬ b < issueXChainOperationTxNeeded fees →
      issueXChainOperationTx fees env =
        ⟨[.issued 1, .issued 2, .confirmCall 1, .verifyCall 1,
            .confirmCall 2, .verifyCall 2], [t1, t2]⟩)
    ∧ (¬ b < issueXToPTransferNeeded fees →
      issueXToPTransfer fees env =
        ⟨[.issued 1, .issued 2, .confirmCall 1, .verifyCall 1,
            .confirmCall 2, .verifyCall 2], [t1, t2]⟩)
    ∧ (¬ b < issuePToXTransferNeeded fees →
      issuePToXTransfer fees env =
        ⟨[.issued 1, .issued 2, .confirmCall 1, .verifyCall 1,
            .confirmCall 2, .verifyCall 2], [t1, t2]⟩) := by
  refine ⟨?_, ?_, ?_, ?_, ?_⟩ <;> intro hge
  · simp [issueXChainBaseTx, hb, h1, hge]
  · simp [issueXChainCreateAssetTx, hb, h1, hge]
  · simp [issueXChainOperationTx, hb, h1, h2, hge]
  · simp [issueXToPTransfer, hb, h1, h2, hge]
  · simp [issuePToXTransfer, hb, h1, h2, hge]

/-- Claim C3 witness: with zero fees, a rich balance and tx ids 1 and 2,
the mint flow and the forward transfer produce the issue-issue-confirm-
verify-confirm-verify trace. -/
theorem flow_shapes_witness :
    issueXChainOperationTx feesZero envRich =
        ⟨[.issued 1, .issued 2, .confirmCall 1, .verifyCall 1,
            .confirmCall 2, .verifyCall 2], [1, 2]⟩ ∧
      issueXToPTransfer feesZero envRich =
        ⟨[.issued 1, .issued 2, .confirmCall 1, .verifyCall 1,
            .confirmCall 2, .verifyCall 2], [1, 2]⟩ :=
  ⟨(flow_shapes feesZero envRich 2000000000 1 2 rfl rfl rfl).2.2.1 (by decide),
    (flow_shapes feesZero envRich 2000000000 1 2 rfl rfl rfl).2.2.2.1 (by decide)⟩

/-- Claim C4 counterexample: with zero fees the reverse flow requires
49463 nanoAVAX (one Schmeckle) where the claimed symmetric precondition
(the forward flow's one-Avax transfer amount) would require 1000000000:
the reverse precondition does not add the same transfer amount. -/
theorem pToX_needed_not_same_amount :
    ¬ issuePToXTransferNeeded feesZero =
        feesZero.pBaseTxFee + feesZero.xBaseTxFee + avaxUnit := by
  decide

/-- Claim C4 (amended): the fee part of the reverse precondition mirrors
the forward one: forward requires the X-chain fee plus the P-chain fee
plus one Avax, reverse requires the same two fees plus its own, smaller
transfer amount of one Schmeckle; stripping the transfer amounts leaves
equal fee requirements. -/
theorem transfer_preconditions_fee_symmetric (fees : Fees) :
    issueXToPTransferNeeded fees = fees.xBaseTxFee + fees.pBaseTxFee + avaxUnit
    ∧ issuePToXTransferNeeded fees = fees.pBaseTxFee + fees.xBaseTxFee + schmeckle
    ∧ issueXToPTransferNeeded fees - avaxUnit =
        issuePToXTransferNeeded fees - schmeckle := by
  refine ⟨rfl, rfl, ?_⟩
  simp [issueXToPTransferNeeded, issuePToXTransferNeeded, Nat.add_comm]

/-- Claim C5: for every flow, when the freshly fetched balance is
strictly below the flow's required amount the flow logs only the skip
(not an error event) and returns with an empty issuance list, so the
balance is unchanged under any per-transaction effect. -/
theorem skip_on_insufficient_balance (fees : Fees) (env : FlowEnv) (b : Nat)
    (effect : Nat → Nat → Nat) :
    (env.balance = .ok b → b < issueXChainBaseTxNeeded fees →
      issueXChainBaseTx fees env = ⟨[.skip], []⟩ ∧
        balanceAfter effect b (issueXChainBaseTx fees env).issued = b)
    ∧ (env.balance = .ok b → b < issueXChainCreateAssetTxNeeded fees →
      issueXChainCreateAssetTx fees env = ⟨[.skip], []⟩ ∧
        balanceAfter effect b (issueXChainCreateAssetTx fees env).issued = b)
    ∧ (env.balance = .ok b → b < issueXChainOperationTxNeeded fees →
      issueXChainOperationTx fees env = ⟨[.skip], []⟩ ∧
        balanceAfter effect b (issueXChainOperationTx fees env).issued = b)
    ∧ (env.balance = .ok b → b < issueXToPTransferNeeded fees →
      issueXToPTransfer fees env = ⟨[.skip], []⟩ ∧
        balanceAfter effect b (issueXToPTransfer fees env).issued = b)
    ∧ (env.balance = .ok b → b < issuePToXTransferNeeded fees →
      issuePToXTransfer fees env = ⟨[.skip], []⟩ ∧
        balanceAfter effect b (issuePToXTransfer fees env).issued = b) := by
  refine ⟨?_, ?_, ?_, ?_, ?_⟩ <;> intro hb hlt
  · have h : issueXChainBaseTx fees env = ⟨[.skip], []⟩ := by
      simp [issueXChainBaseTx, hb, hlt]
    exact ⟨h, by rw [h]; rfl⟩
  · have h : issueXChainCreateAssetTx fees env = ⟨[.skip], []⟩ := by
      simp [issueXChainCreateAssetTx, hb, hlt]
    exact ⟨h, by rw [h]; rfl⟩
  · have h : issueXChainOperationTx fees env = ⟨[.skip], []⟩ := by
      simp [issueXChainOperationTx, hb, hlt]
    exact ⟨h, by rw [h]; rfl⟩
  · have h : issueXToPTransfer fees env = ⟨[.skip], []⟩ := by
      simp [issueXToPTransfer, hb, hlt]
    exact ⟨h, by rw [h]; rfl⟩
  · have h : issuePToXTransfer fees env = ⟨[.skip], []⟩ := by
      simp [issuePToXTransfer, hb, hlt]
    exact ⟨h, by rw [h]; rfl⟩

/-- Claim C5 witness: with one-nanoAVAX fees and a zero balance, all
five flows skip and issue nothing. -/
theorem skip_on_insufficient_balance_witness :
    issueXChainBaseTx feesOne envPoor = ⟨[.skip], []⟩
    ∧ issueXChainCreateAssetTx feesOne envPoor = ⟨[.skip], []⟩
    ∧ issueXChainOperationTx feesOne envPoor = ⟨[.skip], []⟩
    ∧ issueXToPTransfer feesOne envPoor = ⟨[.skip], []⟩
    ∧ issuePToXTransfer feesOne envPoor = ⟨[.skip], []⟩ :=
  ⟨((skip_on_insufficient_balance feesOne envPoor 0 fun x _ => x).1
      rfl (by decide)).1,
    ((skip_on_insufficient_balance feesOne envPoor 0 fun x _ => x).2.1
      rfl (by decide)).1,
    ((skip_on_insufficient_balance feesOne envPoor 0 fun x _ => x).2.2.1
      rfl (by decide)).1,
    ((skip_on_insufficient_balance feesOne envPoor 0 fun x _ => x).2.2.2.1
      rfl (by decide)).1,
    ((skip_on_insufficient_balance feesOne envPoor 0 fun x _ => x).2.2.2.2
      rfl (by decide)).1⟩

/-- Claim C6: in the asset-creation-plus-mint flow, when the
asset-creation issuance fails the flow returns at once with only the
failure log and an empty issuance list; in particular the dependent mint
operation transaction is never issued. -/
theorem operation_flow_stops_on_create_failure (fees : Fees) (env : FlowEnv)
    (b : Nat) (hb : env.balance = .ok b)
    (hge : ¬ b < issueXChainOperationTxNeeded fees)
    (hfail : env.issue1 = .error ()) :
    issueXChainOperationTx fees env = ⟨[.issueFailed 1], []⟩ ∧
      Event.issued 2 ∉ (issueXChainOperationTx fees env).events := by
  have h : issueXChainOperationTx fees env = ⟨[.issueFailed 1], []⟩ := by
    simp [issueXChainOperationTx, hb, hge, hfail]
  refine ⟨h, ?_⟩
  rw [h]
  decide

/-- Claim C6 witness: with one-nanoAVAX fees, a rich balance and a
failing creation issuance, the mint flow stops after the failure log. -/
theorem operation_flow_stops_on_create_failure_witness :
    issueXChainOperationTx feesOne envIssue1Err = ⟨[.issueFailed 1], []⟩ ∧
      Event.issued 2 ∉ (issueXChainOperationTx feesOne envIssue1Err).events :=
  operation_flow_stops_on_create_failure feesOne envIssue1Err 2000000000
    rfl (by decide) rfl

/-! ### Scheduler loop lemmas -/

theorem flowsFrom_length (fees : Fees) (env : RunEnv) :
    ∀ m k, (flowsFrom fees env k m).length = m := by
  intro m
  induction m with
  | zero => intro k; rfl
  | succ m ih =>
    intro k
    simp [flowsFrom, ih]

theorem runLoop_cancel (fees : Fees) (env : RunEnv) :
    ∀ n k fuel, n < fuel →
      (∀ m, m < n → env.cancel (k + m) = false) →
      env.cancel (k + n) = true →
      runLoop fees env fuel k = (flowsFrom fees env k (n + 1), true) := by
  intro n
  induction n with
  | zero =>
    intro k fuel hfuel _ hc
    match fuel, hfuel with
    | fuel + 1, _ =>
      rw [Nat.add_zero] at hc
      simp [runLoop, flowsFrom, hc]
  | succ m ih =>
    intro k fuel hfuel hpre hc
    match fuel, hfuel with
    | fuel + 1, hfuel =>
      have hk : env.cancel k = false := by
        have h0 := hpre 0 (Nat.succ_pos m)
        rwa [Nat.add_zero] at h0
      have hrec := ih (k + 1) fuel (Nat.lt_of_succ_lt_succ hfuel)
        (fun j hj => by
          have h2 := hpre (j + 1) (Nat.succ_lt_succ hj)
          have e : k + (j + 1) = (k + 1) + j := by omega
          rwa [e] at h2)
        (by
          have e : k + (m + 1) = (k + 1) + m := by omega
          rwa [e] at hc)
      simp [runLoop, hk, hrec, flowsFrom]

/-- Claim C8: if the cancellation signal first fires during the wait
after iteration n, the scheduler loop returns at that boundary: the
observed trace is exactly the n+1 complete flow executions of
iterations 0..n (no flow is interrupted and no later flow starts), and
the loop returned. -/
theorem cancellation_stops_at_iteration_boundary (fees : Fees) (env : RunEnv)
    (n fuel : Nat) (hfuel : n < fuel)
    (hpre : ∀ m, m < n → env.cancel m = false) (hc : env.cancel n = true) :
    runLoop fees env fuel 0 = (flowsFrom fees env 0 (n + 1), true) ∧
      (flowsFrom fees env 0 (n + 1)).length = n + 1 := by
  refine ⟨?_, flowsFrom_length fees env (n + 1) 0⟩
  exact runLoop_cancel fees env n 0 fuel hfuel
    (fun m hm => by have := hpre m hm; rwa [Nat.zero_add]) (by rwa [Nat.zero_add])

/-- Claim C8 witness: with cancellation firing during the wait after
iteration 1, the loop returns after exactly the two flow executions of
iterations 0 and 1. -/
theorem cancellation_stops_at_iteration_boundary_witness :
    runLoop feesOne runEnvCancelAt1 3 0 =
        (flowsFrom feesOne runEnvCancelAt1 0 2, true) ∧
      (flowsFrom feesOne runEnvCancelAt1 0 2).length = 2 :=
  cancellation_stops_at_iteration_boundary feesOne runEnvCancelAt1 1 3
    (by decide) (by decide) rfl

/-- Claim C9: a failing balance query before the scheduler loop starts
is fatal (the process terminates with no flow executed), for either the
X-chain or the P-chain starting query; a failing balance query inside a
flow instead yields only that flow's failure log with nothing issued,
and the loop proceeds to the next iteration regardless of the flow's
outcome. -/
theorem initial_balance_failure_is_fatal (fees : Fees) (env : RunEnv) (fuel : Nat) :
    (env.xBalance = .error () → workloadRun fees env fuel = ⟨.fatal, []⟩)
    ∧ (∀ x, env.xBalance = .ok x → env.pBalance = .error () →
        workloadRun fees env fuel = ⟨.fatal, []⟩)
    ∧ (∀ fenv : FlowEnv, fenv.balance = .error () → ∀ flowID, flowID < 5 →
        execFlow fees flowID fenv = ⟨[.balanceFetchFailed], []⟩)
    ∧ (∀ k, env.cancel k = false →
        runLoop fees env (fuel + 1) k =
          (execFlow fees (env.choice k).val (env.flowEnv k) ::
              (runLoop fees env fuel (k + 1)).1,
            (runLoop fees env fuel (k + 1)).2)) := by
  refine ⟨?_, ?_, ?_, ?_⟩
  · intro h
    simp [workloadRun, h]
  · intro x hx hp
    simp [workloadRun, hx, hp]
  · intro fenv hb flowID hlt
    interval_cases flowID
    · simp [execFlow, issueXChainBaseTx, hb]
    · simp [execFlow, issueXChainCreateAssetTx, hb]
    · simp [execFlow, issueXChainOperationTx, hb]
    · simp [execFlow, issueXToPTransfer, hb]
    · simp [execFlow, issuePToXTransfer, hb]
  · intro k hk
    simp [runLoop, hk]

/-- Claim C9 witness: a run oracle whose starting X-chain balance query
fails exits fatally with no flows, while a flow whose own balance query
fails merely logs and issues nothing. -/
theorem initial_balance_failure_is_fatal_witness :
    workloadRun feesOne runEnvFatal 3 = ⟨.fatal, []⟩ ∧
      execFlow feesOne 0 envBalErr = ⟨[.balanceFetchFailed], []⟩ :=
  ⟨(initial_balance_failure_is_fatal feesOne runEnvFatal 3).1 rfl,
    (initial_balance_failure_is_fatal feesOne runEnvFatal 3).2.2.1 envBalErr rfl 0
      (by decide)⟩

/-! ### Health gate lemmas -/

theorem awaitHealthyNode_cancel_indep (resp : Nat → HealthResult)
    (c c' : Nat → Bool) : ∀ fuel k,
    (awaitHealthyNode resp c fuel k).1 = (awaitHealthyNode resp c' fuel k).1 := by
  intro fuel
  induction fuel with
  | zero => intro k; rfl
  | succ f ih =>
    intro k
    cases h : resp k with
    | healthy => simp [awaitHealthyNode, h]
    | unhealthy => simp [awaitHealthyNode, h, ih]
    | unreachable => simp [awaitHealthyNode, h, ih]

theorem awaitHealthyNode_some_healthy (resp : Nat → HealthResult)
    (c : Nat → Bool) : ∀ fuel k n,
    (awaitHealthyNode resp c fuel k).1 = some n → resp n = HealthResult.healthy := by
  intro fuel
  induction fuel with
  | zero =>
    intro k n h
    cases h
  | succ f ih =>
    intro k n h
    cases hr : resp k with
    | healthy =>
      rw [awaitHealthyNode, hr] at h
      cases h
      exact hr
    | unhealthy =>
      rw [awaitHealthyNode, hr] at h
      exact ih (k + 1) n h
    | unreachable =>
      rw [awaitHealthyNode, hr] at h
      exact ih (k + 1) n h

theorem awaitHealthyNode_none_of_never (resp : Nat → HealthResult)
    (c : Nat → Bool) (hnever : ∀ n, resp n ≠ HealthResult.healthy) :
    ∀ fuel k, (awaitHealthyNode resp c fuel k).1 = none := by
  intro fuel
  induction fuel with
  | zero => intro k; rfl
  | succ f ih =>
    intro k
    cases hr : resp k with
    | healthy => exact absurd hr (hnever k)
    | unhealthy => simp [awaitHealthyNode, hr, ih]
    | unreachable => simp [awaitHealthyNode, hr, ih]

theorem awaitHealthyNode_first (resp : Nat → HealthResult) (c : Nat → Bool) :
    ∀ n k fuel, n < fuel →
      (∀ m, m < n → resp (k + m) ≠ HealthResult.healthy) →
      resp (k + n) = HealthResult.healthy →
      (awaitHealthyNode resp c fuel k).1 = some (k + n) := by
  intro n
  induction n with
  | zero =>
    intro k fuel hfuel _ hc
    match fuel, hfuel with
    | fuel + 1, _ =>
      rw [Nat.add_zero] at hc
      simp [awaitHealthyNode, hc]
  | succ m ih =>
    intro k fuel hfuel hpre hc
    match fuel, hfuel with
    | fuel + 1, hfuel =>
      have hk : resp k ≠ HealthResult.healthy := by
        have h0 := hpre 0 (Nat.succ_pos m)
        rwa [Nat.add_zero] at h0
      have hrec := ih (k + 1) fuel (Nat.lt_of_succ_lt_succ hfuel)
        (fun j hj => by
          have h2 := hpre (j + 1) (Nat.succ_lt_succ hj)
          have e : k + (j + 1) = (k + 1) + j := by omega
          rwa [e] at h2)
        (by
          have e : k + (m + 1) = (k + 1) + m := by omega
          rwa [e] at hc)
      have e : (k + 1) + m = k + (m + 1) := by omega
      cases hr : resp k with
      | healthy => exact absurd hr hk
      | unhealthy =>
        rw [awaitHealthyNode, hr]
        rw [e] at hrec
        exact hrec
      | unreachable =>
        rw [awaitHealthyNode, hr]
        rw [e] at hrec
        exact hrec

theorem awaitHealthyNodes_true_imp (resps : Nat → Nat → HealthResult)
    (c : Nat → Nat → Bool) (fuel : Nat) :
    ∀ uris : List Nat, awaitHealthyNodes resps c fuel uris = true →
      ∀ u ∈ uris, ∃ n, resps u n = HealthResult.healthy := by
  intro uris
  induction uris with
  | nil =>
    intro _ u hu
    cases hu
  | cons v rest ih =>
    intro h u hu
    cases hn : (awaitHealthyNode (resps v) (c v) fuel 0).1 with
    | none =>
      rw [awaitHealthyNodes, hn] at h
      cases h
    | some j =>
      rw [awaitHealthyNodes, hn] at h
      rcases List.mem_cons.mp hu with hv | hrest
      · subst hv
        exact ⟨j, awaitHealthyNode_some_healthy (resps u) (c u) fuel 0 j hn⟩
      · exact ih h u hrest

theorem awaitHealthyNodes_false_of_never (resps : Nat → Nat → HealthResult)
    (c : Nat → Nat → Bool) (u : Nat)
    (hnever : ∀ n, resps u n ≠ HealthResult.healthy) :
    ∀ uris : List Nat, u ∈ uris → ∀ fuel,
      awaitHealthyNodes resps c fuel uris = false := by
  intro uris
  induction uris with
  | nil =>
    intro hu
    cases hu
  | cons v rest ih =>
    intro hu fuel
    rcases List.mem_cons.mp hu with hv | hrest
    · subst hv
      rw [awaitHealthyNodes,
        awaitHealthyNode_none_of_never (resps u) (c u) hnever fuel 0]
    · cases hn : (awaitHealthyNode (resps v) (c v) fuel 0).1 with
      | none => rw [awaitHealthyNodes, hn]
      | some j =>
        rw [awaitHealthyNodes, hn]
        exact ih hrest fuel

/-- Claim C7: the readiness gate returns only once every configured
endpoint has reported healthy (a return implies a healthy poll for each
endpoint, and a node polls until its first healthy answer); an endpoint
that never reports healthy blocks it forever, whatever the observation
fuel; cancellation never makes it return (the poll outcome is the same
under any cancellation signal, which is only logged); and the poll
ticker is a fixed 100 milliseconds. -/
theorem readiness_gate_returns_only_all_healthy
    (resps : Nat → Nat → HealthResult) (c : Nat → Nat → Bool)
    (uris : List Nat) (fuel : Nat) :
    (awaitHealthyNodes resps c fuel uris = true →
      ∀ u ∈ uris, ∃ n, resps u n = HealthResult.healthy)
    ∧ (∀ u ∈ uris, (∀ n, resps u n ≠ HealthResult.healthy) →
      ∀ fl, awaitHealthyNodes resps c fl uris = false)
    ∧ (∀ resp : Nat → HealthResult, ∀ n k fl, n < fl →
      (∀ m, m < n → resp (k + m) ≠ HealthResult.healthy) →
      resp (k + n) = HealthResult.healthy →
      ∀ cc : Nat → Bool, (awaitHealthyNode resp cc fl k).1 = some (k + n))
    ∧ (∀ resp : Nat → HealthResult, ∀ cc cc' : Nat → Bool, ∀ fl k,
      (awaitHealthyNode resp cc fl k).1 = (awaitHealthyNode resp cc' fl k).1)
    ∧ healthPollIntervalMilliseconds = 100 := by
  refine ⟨awaitHealthyNodes_true_imp resps c fuel uris, ?_, ?_, ?_, rfl⟩
  · intro u hu hnever fl
    exact awaitHealthyNodes_false_of_never resps c u hnever uris hu fl
  · intro resp n k fl hfl hpre hc cc
    exact awaitHealthyNode_first resp cc n k fl hfl hpre hc
  · intro resp cc cc' fl k
    exact awaitHealthyNode_cancel_indep resp cc cc' fl k

/-- Claim C7 witness: an endpoint healthy from its third poll on is
awaited to exactly that poll whether or not cancellation fires, and an
endpoint list containing a never-healthy node keeps the gate blocked. -/
theorem readiness_gate_returns_only_all_healthy_witness :
    (awaitHealthyNode respHealthyAt2 cancelledAlways 4 0).1 = some 2 ∧
      awaitHealthyNodes respsNever cancelledNone 5 [0, 1] = false :=
  ⟨(readiness_gate_returns_only_all_healthy respsNever cancelledNone [0, 1]
        5).2.2.1 respHealthyAt2 2 0 4 (by decide) (by decide) (by decide)
      cancelledAlways,
    (readiness_gate_returns_only_all_healthy respsNever cancelledNone [0, 1]
        5).2.1 0 (by decide) (fun n hc => HealthResult.noConfusion hc) 5⟩

/-! ### Output owner lemmas -/

/-- Claim C10: for a non-empty owned-address set, makeOwner returns
output owners with threshold 1 and exactly one address, and that address
is a member of the workload's own address set. -/
theorem makeOwner_self_owned (waddrs : List Nat) (h : waddrs ≠ []) :
    (makeOwner waddrs).threshold = 1 ∧
      ∃ a, (makeOwner waddrs).addrs = [a] ∧ a ∈ waddrs := by
  cases waddrs with
  | nil => exact absurd rfl h
  | cons a rest => exact ⟨rfl, a, rfl, List.mem_cons_self a rest⟩

/-- Claim C10 witness: on the address set [7, 8] the owner has threshold
1 and its single address belongs to the set. -/
theorem makeOwner_self_owned_witness :
    (makeOwner [7, 8]).threshold = 1 ∧
      ∃ a, (makeOwner [7, 8]).addrs = [a] ∧ a ∈ [7, 8] :=
  makeOwner_self_owned [7, 8] (by decide)

end Antithesis
